import Mathlib

/-!
Shallow embedding of the `ls-rust` directory-listing utility (`src/main.rs`)
and proofs about its entry-selection and rendering pipeline.

The filesystem is modelled as data: a `DirListing` is the result of
`fs::read_dir` (either an open error, or a list of per-entry results), and
each `Entry` carries the lazily-fetched, fallible `file_type` and `metadata`
of a Rust `DirEntry`.  Entry names are modelled as Lean `String`s (valid
Unicode), so `OsStr::to_str` always succeeds; the source's
`to_string_lossy`/`to_str` fallbacks for non-UTF-8 names are outside the
model.  Timestamps are opaque `Nat` values and the chrono `"%b %e %R"`
formatter is an arbitrary parameter `fmt : Nat → String`, since no property
below depends on the formatted text itself.
-/

namespace LsRust

/-- `args::TimeSort` from the source: which timestamp field is rendered. -/
inductive TimeSort where
  | Atime
  | Mtime
  | Ctime
deriving DecidableEq, Repr

/-- An I/O error value (`std::io::Error` / `Box<dyn Error>`); only its
identity matters for propagation proofs. -/
structure IoErr where
  msg : String
deriving DecidableEq, Repr

end LsRust

deriving instance DecidableEq for Except

namespace LsRust

/-- The file-type categories distinguished by `list_dir`'s classify match:
`is_dir`, `is_symlink`, `is_file`, and the fall-through arm. -/
inductive FileType where
  | dir
  | symlink
  | file
  | other
deriving DecidableEq, Repr

/-- `std::fs::Metadata` as used by the source: the three fallible timestamp
accessors `accessed()`, `modified()`, `created()`. -/
structure Metadata where
  accessed : Except IoErr Nat
  modified : Except IoErr Nat
  created : Except IoErr Nat
deriving DecidableEq, Repr

/-- A `DirEntry`: its path is `parentComponents ++ [name]` (the path of the
listed directory joined with the child's file name), and `file_type()` /
`metadata()` are fallible accessors whose results are part of the model. -/
structure Entry where
  parentComponents : List String
  name : String
  file_type : Except IoErr FileType
  metadata : Except IoErr Metadata
deriving DecidableEq, Repr

/-- The components of `entry.path()`: directory prefix plus file name. -/
def Entry.pathComponents (e : Entry) : List String :=
  e.parentComponents ++ [e.name]

/-- `entry.path().components().count()`. -/
def Entry.componentCount (e : Entry) : Nat :=
  e.pathComponents.length

/-- The resolved CLI options (`args::Arguments` in the source). -/
structure Arguments where
  show_hidden : Bool
  show_almost_all : Bool
  escape : Bool
  time : Option TimeSort
  classify : Bool
  max_depth : Option Nat
  limit : Option Nat
  path : Option String
deriving DecidableEq, Repr

/-- The result of `fs::read_dir` on a directory: an open error, or the native
listing as a sequence of per-entry results (each of which can itself be an
error, dropped by `filter_map(|res| res.ok())`). -/
structure DirListing where
  openResult : Except IoErr (List (Except IoErr Entry))

/-- `std::usize::MAX` on a 64-bit target, the default for a missing limit. -/
def usizeMax : Nat := 2 ^ 64 - 1

/-- Rust `str::starts_with(pat)` for a string pattern: the pattern's
characters are a prefix of the string's characters. -/
def strStartsWith (s pat : String) : Bool :=
  List.isPrefixOf pat.data s.data

/-- The filter closure of `read_entries` (src/main.rs lines 111-125): in
almost-all mode keep every name other than the literal `.` and `..`;
otherwise drop names starting with `.`.  `show_hidden` is not an input —
the source never passes it to `read_entries`. -/
def hiddenKeep (show_almost_all : Bool) (e : Entry) : Bool :=
  if show_almost_all then
    e.name != "." && e.name != ".."
  else
    !(strStartsWith e.name ".")

/-- The `while i < entries.len()` loop of `read_entries` (lines 129-139):
remove in place every entry whose path has more than `max_depth`
components, keeping the rest in order. -/
def depthLoop (max_depth : Nat) : List Entry → List Entry
  | [] => []
  | e :: rest =>
    if e.componentCount > max_depth then depthLoop max_depth rest
    else e :: depthLoop max_depth rest

/-- `entries::read_entries` (src/main.rs lines 103-142): propagate the
directory-open error, drop errored entries, apply the hidden filter, take
at most `limit` (defaulting to `usize::MAX`) entries, then apply the
`max_depth` removal loop. -/
def read_entries (listing : DirListing) (show_almost_all : Bool)
    (max_depth : Option Nat) (limit : Option Nat) : Except IoErr (List Entry) :=
  match listing.openResult with
  | Except.error e => Except.error e
  | Except.ok results =>
    let entries : List Entry :=
      ((results.filterMap Except.toOption).filter
        (hiddenKeep show_almost_all)).take (limit.getD usizeMax)
    match max_depth with
    | some d => Except.ok (depthLoop d entries)
    | none => Except.ok entries

/-- Rust `char::is_ascii_graphic`: the range `'!'..='~'` (0x21–0x7E);
note that the space 0x20 is NOT graphic. -/
def isAsciiGraphic (c : Char) : Bool :=
  0x21 ≤ c.toNat && c.toNat ≤ 0x7E

/-- One octal digit character. -/
def octDigit (n : Nat) : Char :=
  Char.ofNat (48 + n % 8)

/-- `format!("{:03o}", b)` for a byte `b`: three zero-padded octal digits
(for every `b < 512`, hence for every `u8`, the width is exactly 3). -/
def oct3 (n : Nat) : List Char :=
  [octDigit (n / 64), octDigit (n / 8 % 8), octDigit (n % 8)]

/-- The character loop of `escape_string` (src/main.rs lines 205-215): a
graphic ASCII character is pushed unchanged, any other character `c` is
replaced by `format!("\\{:03o}", c as u8)`, where `c as u8` truncates the
scalar value to its low byte (`c.toNat % 256`). -/
def escapeChars : List Char → List Char
  | [] => []
  | c :: rest =>
    (if isAsciiGraphic c then [c] else '\\' :: oct3 (c.toNat % 256))
      ++ escapeChars rest

/-- `list::escape_string`. -/
def escape_string (s : String) : String :=
  String.mk (escapeChars s.data)

/-- Modelled from the claim's words, for comparison with the source's
`isAsciiGraphic`: "printable ASCII" in the standard sense is the range
0x20–0x7E, which INCLUDES the space character. -/
def isAsciiPrintableSpec (c : Char) : Bool :=
  0x20 ≤ c.toNat && c.toNat ≤ 0x7E

/-- The classify match of `list_dir` (src/main.rs lines 175-180):
`/` for a directory, `@` for a symlink, space for a regular file and
space for anything else. -/
def classifyChar : FileType → Char
  | FileType.dir => '/'
  | FileType.symlink => '@'
  | FileType.file => ' '
  | FileType.other => ' '

/-- The name printed for an entry: the last component of `entry.path()`
(which is the entry's file name), escaped when `escape` is set. -/
def displayName (escape : Bool) (e : Entry) : String :=
  if escape then escape_string e.name else e.name

/-- The time step of `list_dir` (src/main.rs lines 184-197): when a time
key is selected, fetch the metadata and then ALL THREE timestamps, each
with `?`; on the first failure return the error with output unchanged
beyond what was already printed; on success print two spaces, the selected
formatted timestamp, and the terminating newline. -/
def renderTimeField (fmt : Nat → String) (time : Option TimeSort) (e : Entry)
    (out : String) : String × Option IoErr :=
  match time with
  | none => (out ++ "\n", none)
  | some ts =>
    match e.metadata with
    | Except.error er => (out, some er)
    | Except.ok md =>
      match md.accessed with
      | Except.error er => (out, some er)
      | Except.ok ta =>
        match md.modified with
        | Except.error er => (out, some er)
        | Except.ok tm =>
          match md.created with
          | Except.error er => (out, some er)
          | Except.ok tc =>
            let time_string :=
              match ts with
              | TimeSort.Atime => fmt ta
              | TimeSort.Mtime => fmt tm
              | TimeSort.Ctime => fmt tc
            (out ++ "  " ++ time_string ++ "\n", none)

/-- One iteration of `list_dir`'s loop for one entry: print the (possibly
escaped) name, then the classify character (fetching `file_type()`, which
can fail), then the time field.  Returns the stdout text after this entry
together with the error that aborted the loop, if any. -/
def renderEntry (fmt : Nat → String) (escape : Bool) (time : Option TimeSort)
    (classify : Bool) (e : Entry) (out : String) : String × Option IoErr :=
  let out := out ++ displayName escape e
  if classify then
    match e.file_type with
    | Except.error er => (out, some er)
    | Except.ok t =>
      renderTimeField fmt time e (out ++ String.singleton (classifyChar t))
  else
    renderTimeField fmt time e out

/-- `list::list_dir` (src/main.rs lines 153-203), with stdout made explicit
as an accumulating string: render each entry in order; the first error
aborts the loop, leaving everything already printed on stdout. -/
def list_dir (fmt : Nat → String) (escape : Bool) (time : Option TimeSort)
    (classify : Bool) : List Entry → String → String × Except IoErr Unit
  | [], out => (out, Except.ok ())
  | e :: rest, out =>
    match renderEntry fmt escape time classify e out with
    | (out1, some er) => (out1, Except.error er)
    | (out1, none) => list_dir fmt escape time classify rest out1

/-- `main` (src/main.rs lines 218-227): resolve the path (default `.`),
read the entries — note that only `show_almost_all`, `max_depth` and
`limit` are passed, never `show_hidden` — and render them.  `fs` maps a
path to the listing the filesystem would return for it. -/
def run (fmt : Nat → String) (fs : String → DirListing)
    (args : Arguments) : String × Except IoErr Unit :=
  match read_entries (fs (args.path.getD ".")) args.show_almost_all
      args.max_depth args.limit with
  | Except.error e => ("", Except.error e)
  | Except.ok entries => list_dir fmt args.escape args.time args.classify entries ""

/-! Concrete data used to evaluate the model at specific inputs. -/

/-- A hidden directory entry `.git` as found in the repository root. -/
def demoGit : Entry :=
  { parentComponents := ["."], name := ".git",
    file_type := Except.ok FileType.dir,
    metadata := Except.ok ⟨Except.ok 0, Except.ok 0, Except.ok 0⟩ }

/-- A visible entry `Cargo.toml`. -/
def demoCargo : Entry :=
  { parentComponents := ["."], name := "Cargo.toml",
    file_type := Except.ok FileType.file,
    metadata := Except.ok ⟨Except.ok 0, Except.ok 0, Except.ok 0⟩ }

/-- The raw results of reading the demo directory: `.git` then
`Cargo.toml`, both retrieved without error. -/
def demoResults : List (Except IoErr Entry) :=
  [Except.ok demoGit, Except.ok demoCargo]

/-- A directory listing containing `.git` and `Cargo.toml`, in that order. -/
def demoListing : DirListing :=
  ⟨Except.ok demoResults⟩

/-- The configuration produced by `ls -a .`: `show_hidden` set, nothing
else. -/
def argsAll : Arguments :=
  { show_hidden := true, show_almost_all := false, escape := false,
    time := none, classify := false, max_depth := none, limit := none,
    path := some "." }

/-! Helper lemmas about the pipeline. -/

lemma hiddenKeep_false_eq :
    hiddenKeep false = fun e => !(strStartsWith e.name ".") := rfl

lemma hiddenKeep_true_eq :
    hiddenKeep true = fun e => e.name != "." && e.name != ".." := rfl

lemma depthLoop_eq_filter (d : Nat) (l : List Entry) :
    depthLoop d l = l.filter (fun e => e.componentCount ≤ d) := by
  induction l with
  | nil => rfl
  | cons e rest ih =>
    by_cases h : e.componentCount ≤ d
    · rw [List.filter_cons]
      simp [depthLoop, Nat.not_lt.mpr h, h, ih]
    · rw [List.filter_cons]
      simp [depthLoop, Nat.lt_of_not_le h, h, ih]

lemma depthLoop_sublist (d : Nat) (l : List Entry) :
    (depthLoop d l).Sublist l := by
  rw [depthLoop_eq_filter]
  exact List.filter_sublist l

/-- Whatever the options, a successful `read_entries` result is a sublist of
the hidden-filtered successful raw entries. -/
lemma read_entries_sublist_hidden (listing : DirListing) (sa : Bool)
    (md lim : Option Nat) (res : List (Except IoErr Entry)) (es : List Entry)
    (hopen : listing.openResult = Except.ok res)
    (h : read_entries listing sa md lim = Except.ok es) :
    es.Sublist ((res.filterMap Except.toOption).filter (hiddenKeep sa)) := by
  simp only [read_entries, hopen] at h
  cases md with
  | none =>
    simp only [Except.ok.injEq] at h
    subst h
    exact List.take_sublist _ _
  | some d =>
    simp only [Except.ok.injEq] at h
    subst h
    exact (depthLoop_sublist _ _).trans (List.take_sublist _ _)

/-- When the number of raw entries fits in a `usize`, an absent limit
truncates nothing. -/
lemma take_usizeMax_of_le (res : List (Except IoErr Entry))
    (hlen : res.length ≤ usizeMax) (p : Entry → Bool) :
    ((res.filterMap Except.toOption).filter p).take usizeMax
      = (res.filterMap Except.toOption).filter p :=
  List.take_of_length_le
    ((List.length_filter_le _ _).trans
      ((List.length_filterMap_le _ _).trans hlen))

/-- Rendering a list that renders without error and then continuing with
more entries continues from the accumulated output. -/
lemma list_dir_ok_append (fmt : Nat → String) (esc : Bool)
    (t : Option TimeSort) (cls : Bool) (pre rest : List Entry)
    (out out1 : String)
    (h : list_dir fmt esc t cls pre out = (out1, Except.ok ())) :
    list_dir fmt esc t cls (pre ++ rest) out = list_dir fmt esc t cls rest out1 := by
  induction pre generalizing out with
  | nil =>
    simp only [list_dir, Prod.mk.injEq] at h
    rw [List.nil_append, h.1]
  | cons e pre ih =>
    rw [List.cons_append]
    simp only [list_dir] at h ⊢
    cases hre : renderEntry fmt esc t cls e out with
    | mk o err =>
      cases err with
      | some er => simp [hre] at h
      | none =>
        rw [hre] at h
        exact ih o h

/-! Claim theorems. -/

/-- C1: the claim states that with `show_hidden = true` and
`show_almost_all = false` the entry-selection step filters no name.  The
code contradicts it: `main` never passes `show_hidden` to `read_entries`,
whose default branch drops every dot-prefixed name, so `ls -a` on a
directory containing `.git` and `Cargo.toml` prints only `Cargo.toml`.
The repository's own test `test_all` and the `-a` help text expect `.git`
in the output, so this is a divergence of the code from its stated intent.
This theorem evaluates the model at the failing input. -/
theorem c1_show_hidden_still_filters :
    argsAll.show_hidden = true ∧ argsAll.show_almost_all = false ∧
    run (fun _ => "") (fun _ => demoListing) argsAll
      = ("Cargo.toml\n", Except.ok ()) := by
  refine ⟨rfl, rfl, ?_⟩
  decide

/-- C2: whenever `show_almost_all` is false, `read_entries` drops exactly
the entries whose names begin with `.` and keeps every other entry, and
the whole behavior of the program is identical for `show_hidden` true and
false (dot-prefixed names never reach the output in either case). -/
theorem c2_default_mode_filters_dot_names
    (res : List (Except IoErr Entry)) (hlen : res.length ≤ usizeMax)
    (listing : DirListing) (hopen : listing.openResult = Except.ok res)
    (md lim : Option Nat) (es : List Entry) (e : Entry)
    (fmt : Nat → String) (fs : String → DirListing) (args : Arguments)
    (b : Bool) :
    read_entries listing false none none
      = Except.ok ((res.filterMap Except.toOption).filter
          (fun x => !(strStartsWith x.name "."))) ∧
    (read_entries listing false md lim = Except.ok es → e ∈ es →
      strStartsWith e.name "." = false) ∧
    run fmt fs { args with show_hidden := b } = run fmt fs args := by
  refine ⟨?_, ?_, rfl⟩
  · simp only [read_entries, hopen, Option.getD_none, hiddenKeep_false_eq]
    rw [take_usizeMax_of_le res hlen]
  · intro h hmem
    have hsub := read_entries_sublist_hidden listing false md lim res es hopen h
    have := List.mem_filter.mp (hsub.subset hmem)
    rw [hiddenKeep_false_eq] at this
    simpa using this.2

/-- Witness for C2 at the demo directory: `.git` is dropped, `Cargo.toml`
is kept, and flipping `show_hidden` changes nothing. -/
theorem c2_default_mode_filters_dot_names_witness :
    read_entries demoListing false none none
      = Except.ok ((demoResults.filterMap Except.toOption).filter
          (fun x => !(strStartsWith x.name "."))) ∧
    strStartsWith demoCargo.name "." = false ∧
    run (fun _ => "") (fun _ => demoListing) { argsAll with show_hidden := false }
      = run (fun _ => "") (fun _ => demoListing) argsAll := by
  have h := c2_default_mode_filters_dot_names demoResults (by decide)
    demoListing rfl none none [demoCargo] demoCargo (fun _ => "")
    (fun _ => demoListing) argsAll false
  exact ⟨h.1, h.2.1 (by decide) (by decide), h.2.2⟩

/-- C3 counterexample: the space character is printable ASCII in the
standard sense (0x20–0x7E) but escaped by `escape_string`, because the
source tests `is_ascii_graphic`, which excludes the space.  So the input
`" "` consists only of printable ASCII yet is not returned unchanged. -/
theorem c3_printable_space_counterexample :
    (∀ c ∈ (" " : String).data, isAsciiPrintableSpec c = true) ∧
    escape_string " " = "\\040" ∧ escape_string " " ≠ " " := by
  decide

/-- C3 (amended): `escape_string` leaves a name of ASCII *graphic*
characters (printable excluding the space, 0x21–0x7E) unchanged, and maps
any single-byte character that is not ASCII graphic — the space included,
and in particular any control byte — to exactly a backslash followed by
the 3-digit zero-padded octal of its byte value. -/
theorem c3_escape_graphic_fixed_and_octal (s : String)
    (hs : ∀ c ∈ s.data, isAsciiGraphic c = true)
    (c : Char) (hc : c.toNat < 256) (hg : isAsciiGraphic c = false) :
    escape_string s = s ∧
    escape_string (String.singleton c) = String.mk ('\\' :: oct3 c.toNat) := by
  constructor
  · have main : ∀ l : List Char, (∀ c ∈ l, isAsciiGraphic c = true) →
        escapeChars l = l := by
      intro l
      induction l with
      | nil => intro _; rfl
      | cons a rest ih =>
        intro hall
        have ha := hall a (List.mem_cons_self a rest)
        have hrest := fun x hx => hall x (List.mem_cons_of_mem a hx)
        simp [escapeChars, ha, ih hrest]
    show String.mk (escapeChars s.data) = s
    rw [main s.data hs]
  · show String.mk (escapeChars [c]) = String.mk ('\\' :: oct3 c.toNat)
    simp [escapeChars, hg, Nat.mod_eq_of_lt hc]

/-- Witness for the amended C3: `"abc"` passes through unchanged and the
bell character `\x07` becomes `\007`. -/
theorem c3_escape_graphic_fixed_and_octal_witness :
    escape_string "abc" = "abc" ∧
    escape_string (String.singleton (Char.ofNat 7))
      = String.mk ('\\' :: oct3 (Char.ofNat 7).toNat) :=
  c3_escape_graphic_fixed_and_octal "abc" (by decide) (Char.ofNat 7)
    (by decide) (by decide)

/-- C4: with `limit = N`, `read_entries` returns at most `N` entries, and
the truncation applies to the hidden-filtered sequence before the
`max_depth` filter: with both options set the result is the depth filter
of the result obtained with the limit alone. -/
theorem c4_limit_truncates_before_depth
    (listing : DirListing) (sa : Bool) (md : Option Nat) (N d : Nat)
    (es : List Entry)
    (h : read_entries listing sa md (some N) = Except.ok es) :
    es.length ≤ N ∧
    read_entries listing sa (some d) (some N)
      = Except.map (depthLoop d) (read_entries listing sa none (some N)) := by
  rcases listing with ⟨op⟩
  constructor
  · cases op with
    | error e => simp [read_entries] at h
    | ok res =>
      simp only [read_entries, Option.getD_some] at h
      cases md with
      | none =>
        simp only [Except.ok.injEq] at h
        subst h
        exact List.length_take_le _ _
      | some d' =>
        simp only [Except.ok.injEq] at h
        subst h
        exact ((depthLoop_sublist _ _).length_le).trans (List.length_take_le _ _)
  · cases op with
    | error e => rfl
    | ok res => rfl

/-- Witness for C4 at the demo directory with `limit = 1`, `max_depth = 2`
for the hypothesis and `max_depth = 5` for the composition. -/
theorem c4_limit_truncates_before_depth_witness :
    ([demoCargo] : List Entry).length ≤ 1 ∧
    read_entries demoListing false (some 5) (some 1)
      = Except.map (depthLoop 5) (read_entries demoListing false none (some 1)) :=
  c4_limit_truncates_before_depth demoListing false (some 2) 1 5 [demoCargo]
    (by decide)

/-- C5: with `max_depth = N`, `read_entries` returns exactly those entries
of the unrestricted result whose full path (directory prefix plus file
name) has at most `N` components, every returned entry satisfies that
bound, and the relative order of the survivors is unchanged. -/
theorem c5_max_depth_component_bound
    (listing : DirListing) (sa : Bool) (N : Nat) (lim : Option Nat)
    (es0 es : List Entry)
    (h0 : read_entries listing sa none lim = Except.ok es0)
    (h : read_entries listing sa (some N) lim = Except.ok es) :
    es = es0.filter (fun e => e.componentCount ≤ N) ∧
    (∀ e ∈ es, e.componentCount ≤ N) ∧ es.Sublist es0 := by
  rcases listing with ⟨op⟩
  cases op with
  | error e => simp [read_entries] at h0
  | ok res =>
    simp only [read_entries, Except.ok.injEq] at h0 h
    subst h0
    subst h
    refine ⟨depthLoop_eq_filter N _, ?_, depthLoop_sublist _ _⟩
    intro e hmem
    rw [depthLoop_eq_filter] at hmem
    have := List.mem_filter.mp hmem
    simpa using this.2

/-- Witness for C5 at the demo directory with `max_depth = 2`: both
`./Cargo.toml` components fit and the entry survives. -/
theorem c5_max_depth_component_bound_witness :
    ([demoCargo] : List Entry)
      = ([demoCargo] : List Entry).filter (fun e => e.componentCount ≤ 2) ∧
    demoCargo.componentCount ≤ 2 ∧
    List.Sublist ([demoCargo] : List Entry) [demoCargo] := by
  have h := c5_max_depth_component_bound demoListing false 2 none
    [demoCargo] [demoCargo] (by decide) (by decide)
  exact ⟨h.1, h.2.1 demoCargo (by decide), h.2.2⟩

/-- C6: with `show_almost_all` set, `read_entries` drops exactly the
entries named literally `.` and `..` and keeps everything else, other
dot-prefixed names included. -/
theorem c6_almost_all_drops_only_self_parent
    (res : List (Except IoErr Entry)) (hlen : res.length ≤ usizeMax)
    (listing : DirListing) (hopen : listing.openResult = Except.ok res) :
    read_entries listing true none none
      = Except.ok ((res.filterMap Except.toOption).filter
          (fun x => x.name != "." && x.name != "..")) ∧
    ∀ e, e ∈ (res.filterMap Except.toOption).filter
          (fun x => x.name != "." && x.name != "..")
        ↔ e ∈ res.filterMap Except.toOption ∧ e.name ≠ "." ∧ e.name ≠ ".." := by
  constructor
  · simp only [read_entries, hopen, Option.getD_none, hiddenKeep_true_eq]
    rw [take_usizeMax_of_le res hlen]
  · intro e
    rw [List.mem_filter]
    simp [and_assoc]

/-- Witness for C6 at the demo directory: the dot-prefixed `.git` is kept
in almost-all mode. -/
theorem c6_almost_all_drops_only_self_parent_witness :
    read_entries demoListing true none none
      = Except.ok ((demoResults.filterMap Except.toOption).filter
          (fun x => x.name != "." && x.name != "..")) ∧
    (demoGit ∈ (demoResults.filterMap Except.toOption).filter
          (fun x => x.name != "." && x.name != "..")
      ↔ demoGit ∈ demoResults.filterMap Except.toOption ∧
        demoGit.name ≠ "." ∧ demoGit.name ≠ "..") := by
  have h := c6_almost_all_drops_only_self_parent demoResults (by decide)
    demoListing rfl
  exact ⟨h.1, h.2 demoGit⟩

/-- An entry whose metadata read fails, for the error-propagation proofs. -/
def demoBad : Entry :=
  { parentComponents := ["."], name := "bad.txt",
    file_type := Except.ok FileType.file,
    metadata := Except.error ⟨"gone"⟩ }

/-- An entry whose creation time is unavailable while its access and
modification times are fine. -/
def demoCtimeBad : Entry :=
  { parentComponents := ["."], name := "x.txt",
    file_type := Except.ok FileType.file,
    metadata := Except.ok
      ⟨Except.ok 1, Except.ok 2, Except.error ⟨"no ctime"⟩⟩ }

/-- An entry whose `file_type()` read fails, for the classify abort path. -/
def demoFtBad : Entry :=
  { parentComponents := ["."], name := "ft.txt",
    file_type := Except.error ⟨"no type"⟩,
    metadata := Except.ok ⟨Except.ok 0, Except.ok 0, Except.ok 0⟩ }

/-- C7: a directory-open error makes `read_entries` fail, an error on an
individual raw entry merely omits that entry from the result, and any
metadata or file-type retrieval failure while rendering halts `list_dir`
with the error, leaving every previously written line (and the partial
line of the failing entry) on the output — shown both for a metadata
failure in the time step and for a `file_type()` failure in the classify
step. -/
theorem c7_error_propagation_policy
    (er er2 : IoErr) (sa : Bool) (md lim : Option Nat)
    (res1 res2 : List (Except IoErr Entry))
    (fmt : Nat → String) (esc : Bool) (ts : TimeSort) (t : Option TimeSort)
    (pre post pre2 post2 : List Entry) (e e2 : Entry) (out1 out2 : String)
    (hpre : list_dir fmt esc (some ts) false pre "" = (out1, Except.ok ()))
    (hbad : e.metadata = Except.error er)
    (hpre2 : list_dir fmt esc t true pre2 "" = (out2, Except.ok ()))
    (hft : e2.file_type = Except.error er2) :
    read_entries ⟨Except.error er⟩ sa md lim = Except.error er ∧
    read_entries ⟨Except.ok (res1 ++ Except.error er :: res2)⟩ sa md lim
      = read_entries ⟨Except.ok (res1 ++ res2)⟩ sa md lim ∧
    list_dir fmt esc (some ts) false (pre ++ e :: post) ""
      = (out1 ++ displayName esc e, Except.error er) ∧
    list_dir fmt esc t true (pre2 ++ e2 :: post2) ""
      = (out2 ++ displayName esc e2, Except.error er2) := by
  refine ⟨rfl, ?_, ?_, ?_⟩
  · simp [read_entries, List.filterMap_append, List.filterMap_cons,
      Except.toOption]
  · rw [list_dir_ok_append fmt esc (some ts) false pre (e :: post) "" out1 hpre]
    simp [list_dir, renderEntry, renderTimeField, hbad]
  · rw [list_dir_ok_append fmt esc t true pre2 (e2 :: post2) "" out2 hpre2]
    simp [list_dir, renderEntry, hft]

/-- Witness for C7: a concrete open error, a concrete dropped raw entry,
a metadata-failure abort on `bad.txt` after `Cargo.toml` was printed, and
a file-type-failure abort on `ft.txt` (classify set) after `.git/` was
printed. -/
theorem c7_error_propagation_policy_witness :
    read_entries ⟨Except.error ⟨"gone"⟩⟩ false none none
      = Except.error ⟨"gone"⟩ ∧
    read_entries
        ⟨Except.ok ([Except.ok demoCargo] ++ Except.error ⟨"gone"⟩ :: [])⟩
        false none none
      = read_entries ⟨Except.ok ([Except.ok demoCargo] ++ [])⟩ false none none ∧
    list_dir (fun _ => "") false (some TimeSort.Mtime) false
        ([demoCargo] ++ demoBad :: [demoGit]) ""
      = ("Cargo.toml  \n" ++ displayName false demoBad,
          Except.error ⟨"gone"⟩) ∧
    list_dir (fun _ => "") false none true ([demoGit] ++ demoFtBad :: [demoCargo]) ""
      = (".git/\n" ++ displayName false demoFtBad, Except.error ⟨"no type"⟩) :=
  c7_error_propagation_policy ⟨"gone"⟩ ⟨"no type"⟩ false none none
    [Except.ok demoCargo] [] (fun _ => "") false TimeSort.Mtime none
    [demoCargo] [demoGit] [demoGit] [demoCargo] demoBad demoFtBad
    "Cargo.toml  \n" ".git/\n" (by decide) (by decide) (by decide) (by decide)

/-- An entry whose access time is unavailable. -/
def demoAtimeBad : Entry :=
  { parentComponents := ["."], name := "a.txt",
    file_type := Except.ok FileType.file,
    metadata := Except.ok
      ⟨Except.error ⟨"no atime"⟩, Except.ok 2, Except.ok 3⟩ }

/-- An entry whose modification time is unavailable. -/
def demoMtimeBad : Entry :=
  { parentComponents := ["."], name := "m.txt",
    file_type := Except.ok FileType.file,
    metadata := Except.ok
      ⟨Except.ok 1, Except.error ⟨"no mtime"⟩, Except.ok 3⟩ }

/-- C8: when any time key is selected, `list_dir` fetches all three
timestamps and fails if any one of them is unavailable, even when it is
not the one displayed: for every `time_key`, a missing access time, a
missing modification time, or a missing creation time each aborts the
render with that timestamp's error. -/
theorem c8_all_three_timestamps_required
    (fmt : Nat → String) (esc : Bool) (ts : TimeSort)
    (ea em ec : Entry) (mda mdm mdc : Metadata)
    (tam tac tmc : Nat) (era erm erc : IoErr)
    (hma : ea.metadata = Except.ok mda)
    (haa : mda.accessed = Except.error era)
    (hmm : em.metadata = Except.ok mdm)
    (ham : mdm.accessed = Except.ok tam)
    (hm2 : mdm.modified = Except.error erm)
    (hmc : ec.metadata = Except.ok mdc)
    (hac : mdc.accessed = Except.ok tac)
    (hc2 : mdc.modified = Except.ok tmc)
    (hcc : mdc.created = Except.error erc) :
    list_dir fmt esc (some ts) false [ea] ""
      = (displayName esc ea, Except.error era) ∧
    list_dir fmt esc (some ts) false [em] ""
      = (displayName esc em, Except.error erm) ∧
    list_dir fmt esc (some ts) false [ec] ""
      = (displayName esc ec, Except.error erc) := by
  refine ⟨?_, ?_, ?_⟩
  · simp [list_dir, renderEntry, renderTimeField, hma, haa]
  · simp [list_dir, renderEntry, renderTimeField, hmm, ham, hm2]
  · simp [list_dir, renderEntry, renderTimeField, hmc, hac, hc2, hcc]

/-- Witness for C8: `time_key = Mtime` errors on an entry whose access
time is missing, on one whose modification time is missing, and on one
whose creation time is missing — the last two unavailable timestamps are
not even the one selected. -/
theorem c8_all_three_timestamps_required_witness :
    list_dir (fun _ => "") false (some TimeSort.Mtime) false [demoAtimeBad] ""
      = (displayName false demoAtimeBad, Except.error ⟨"no atime"⟩) ∧
    list_dir (fun _ => "") false (some TimeSort.Mtime) false [demoMtimeBad] ""
      = (displayName false demoMtimeBad, Except.error ⟨"no mtime"⟩) ∧
    list_dir (fun _ => "") false (some TimeSort.Mtime) false [demoCtimeBad] ""
      = (displayName false demoCtimeBad, Except.error ⟨"no ctime"⟩) :=
  c8_all_three_timestamps_required (fun _ => "") false TimeSort.Mtime
    demoAtimeBad demoMtimeBad demoCtimeBad
    ⟨Except.error ⟨"no atime"⟩, Except.ok 2, Except.ok 3⟩
    ⟨Except.ok 1, Except.error ⟨"no mtime"⟩, Except.ok 3⟩
    ⟨Except.ok 1, Except.ok 2, Except.error ⟨"no ctime"⟩⟩
    1 1 2 ⟨"no atime"⟩ ⟨"no mtime"⟩ ⟨"no ctime"⟩
    rfl rfl rfl rfl rfl rfl rfl rfl rfl

/-- C9: with `classify` set the renderer appends exactly one marker with no
separator — `/` for a directory, `@` for a symlink, a space for a regular
file and a space for anything else. -/
theorem c9_classify_appends_one_marker
    (fmt : Nat → String) (esc : Bool) (e : Entry) (t : FileType)
    (h : e.file_type = Except.ok t) :
    list_dir fmt esc none true [e] ""
      = (displayName esc e ++ String.singleton (classifyChar t) ++ "\n",
          Except.ok ()) ∧
    classifyChar FileType.dir = '/' ∧ classifyChar FileType.symlink = '@' ∧
    classifyChar FileType.file = ' ' ∧ classifyChar FileType.other = ' ' := by
  refine ⟨?_, rfl, rfl, rfl, rfl⟩
  simp [list_dir, renderEntry, renderTimeField, h]

/-- Witness for C9: the directory `.git` gets a trailing `/`. -/
theorem c9_classify_appends_one_marker_witness :
    list_dir (fun _ => "") false none true [demoGit] ""
      = (displayName false demoGit
          ++ String.singleton (classifyChar FileType.dir) ++ "\n",
          Except.ok ()) ∧
    classifyChar FileType.dir = '/' ∧ classifyChar FileType.symlink = '@' ∧
    classifyChar FileType.file = ' ' ∧ classifyChar FileType.other = ' ' :=
  c9_classify_appends_one_marker (fun _ => "") false demoGit FileType.dir rfl

/-- C10: whatever the configuration, the sequence handed to the renderer is
a sublist — same elements, same relative order, nothing introduced or
duplicated — of the successfully enumerated raw directory listing. -/
theorem c10_renderer_input_sublist_of_listing
    (listing : DirListing) (sa : Bool) (md lim : Option Nat)
    (res : List (Except IoErr Entry)) (es : List Entry)
    (hopen : listing.openResult = Except.ok res)
    (h : read_entries listing sa md lim = Except.ok es) :
    es.Sublist (res.filterMap Except.toOption) :=
  (read_entries_sublist_hidden listing sa md lim res es hopen h).trans
    (List.filter_sublist _)

/-- Witness for C10 at the demo directory with `limit = 1`. -/
theorem c10_renderer_input_sublist_of_listing_witness :
    List.Sublist ([demoCargo] : List Entry)
      (demoResults.filterMap Except.toOption) :=
  c10_renderer_input_sublist_of_listing demoListing false none (some 1)
    demoResults [demoCargo] rfl (by decide)

end LsRust
